import Mathlib

/-!
Shallow embedding of the retrieval subsystem of the Astronomy-1221 trivia
project (`rag_lectures.py`) and of the answer-checking routine of
`game_logic.py`.

Python strings are modelled as `List Char` (Python indexes code points, so a
character list is the faithful model; Lean `String` positions are bytes).
Real-valued similarity scores are modelled over `ℚ`.  NumPy behaviour that the
code depends on (array conversion of an empty list, `np.dot` shape checking,
`argsort`, negative slicing) is modelled explicitly.  Calls that can raise a
Python exception return `Except String`.
-/

/-- Python `text.split('\n## ')` from `chunk_by_sections` (rag_lectures.py
line 29), specialised to the separator `"\n## "`: scan left to right, cut at
every occurrence of the separator. -/
def splitSections : List Char → List (List Char)
  | [] => [[]]
  | '\n' :: '#' :: '#' :: ' ' :: rest => [] :: splitSections rest
  | c :: rest =>
    match splitSections rest with
    | [] => [[c]]
    | seg :: segs => (c :: seg) :: segs

/-- Python `str.strip()`: remove leading and trailing whitespace. -/
def pyStrip (s : List Char) : List Char :=
  ((s.dropWhile Char.isWhitespace).reverse.dropWhile Char.isWhitespace).reverse

/-- The chunk record built by `chunk_by_sections` (rag_lectures.py lines
42-46): `text` is the stripped section text, `length` the length of the
un-stripped section text, `chunk_id` the index in the pre-filter split. -/
structure Chunk where
  text : List Char
  length : Nat
  chunk_id : Nat
deriving Repr, DecidableEq, Inhabited

/-- `chunk_by_sections` (rag_lectures.py lines 17-48): split on `"\n## "`,
re-attach the `"## "` marker to every segment except the first, and keep a
segment only when its stripped text is longer than 100 characters. -/
def chunk_by_sections (text : List Char) : List Chunk :=
  (splitSections text).enum.filterMap (fun p =>
    let chunk_text := if p.1 = 0 then p.2 else '#' :: '#' :: ' ' :: p.2
    if 100 < (pyStrip chunk_text).length then
      some ⟨pyStrip chunk_text, chunk_text.length, p.1⟩
    else none)

/-- The pre-filter candidate segments of `chunk_by_sections`: the split
pieces with the `"## "` marker re-attached to every piece except the first. -/
def sectionSegments (text : List Char) : List (List Char) :=
  (splitSections text).enum.map (fun p =>
    if p.1 = 0 then p.2 else '#' :: '#' :: ' ' :: p.2)

/-- On-disk cache as seen by `rag_lectures.py` lines 52-60: contents of
`chunks.json` and `embeddings.npy` when the files exist. -/
structure CacheState where
  chunks_file : Option (List Chunk)
  embeddings_file : Option (List (List ℚ))

/-- Result of the module-level load-or-build block (rag_lectures.py lines
56-77), together with which effects the block performed. -/
structure StoreBuild where
  lecture_chunks : List Chunk
  chunk_embeddings : List (List ℚ)
  ran_chunker : Bool
  ran_embedder : Bool
  wrote_cache : Bool
deriving Repr, DecidableEq

/-- rag_lectures.py lines 56-77: if both cache files exist, deserialize and
return their contents; otherwise chunk the corpus, embed each chunk in order,
and write both cache files. -/
def load_or_build (embed : List Char → List ℚ) (cache : CacheState)
    (lecture_content : List Char) : StoreBuild :=
  match cache.chunks_file, cache.embeddings_file with
  | some cs, some em => ⟨cs, em, false, false, false⟩
  | _, _ =>
    let lecture_chunks := chunk_by_sections lecture_content
    let chunk_embeddings := lecture_chunks.map (fun c => embed c.text)
    ⟨lecture_chunks, chunk_embeddings, true, true, true⟩

/-- Dot product of two vectors, as computed row-wise by `np.dot`. -/
def dot (a b : List ℚ) : ℚ := (List.zipWith (fun x y => x * y) a b).sum

/-- `np.dot(chunk_matrix, query_embedding)` (rag_lectures.py lines 97-100).
With zero chunks, `np.array(chunk_embeddings)` is a 1-D array of shape (0,),
and `np.dot` of it with the query vector raises a shape-mismatch ValueError
(in the degenerate sub-case of an empty query vector, `np.dot` instead yields
a 0-d scalar on which the immediately following `np.argsort` raises; the
search raises either way, so the model reports the error here). -/
def np_dot (rows : List (List ℚ)) (v : List ℚ) : Except String (List ℚ) :=
  if rows.isEmpty then
    Except.error "ValueError: shapes (0,) and (n,) not aligned"
  else if rows.all (fun r => r.length = v.length) then
    Except.ok (rows.map (fun r => dot r v))
  else Except.error "ValueError: shapes not aligned"

/-- Decidable equality of modelled fallible results, for concrete
evaluation of the model. -/
instance {ε α : Type} [DecidableEq ε] [DecidableEq α] : DecidableEq (Except ε α)
  | Except.ok x, Except.ok y =>
    if h : x = y then isTrue (by rw [h]) else isFalse (by simp [h])
  | Except.ok _, Except.error _ => isFalse (by simp)
  | Except.error _, Except.ok _ => isFalse (by simp)
  | Except.error e, Except.error f =>
    if h : e = f then isTrue (by rw [h]) else isFalse (by simp [h])

/-- `np.argsort(similarities)`: a permutation of the index range that sorts
the similarity values in ascending order (ties broken deterministically; the
source's tie order among equal similarities is likewise an unspecified but
deterministic function of the input array). -/
def argsort (s : List ℚ) : List Nat :=
  (List.range s.length).insertionSort (fun i j => s.getD i 0 ≤ s.getD j 0)

/-- Python slice `l[-k:]` for a non-negative integer `k`: for `k ≥ 1` the
last `min(k, len(l))` elements; for `k = 0`, `-0 == 0` so the slice is the
whole list. -/
def pyLastSlice {α : Type} (l : List α) (k : Nat) : List α :=
  if k = 0 then l else l.drop (l.length - k)

/-- Per-query search result record (rag_lectures.py lines 109-114). -/
structure SearchResult where
  chunk : Chunk
  similarity : ℚ
deriving Repr, DecidableEq

/-- `search_chunks` (rag_lectures.py lines 79-116): embed the query, dot it
against every stored embedding row, and return the `top_k` highest-scoring
chunks in descending similarity order via `argsort(...)[-top_k:][::-1]`. -/
def search_chunks (embed : List Char → List ℚ) (lecture_chunks : List Chunk)
    (chunk_embeddings : List (List ℚ)) (query : List Char) (top_k : Nat) :
    Except String (List SearchResult) :=
  let query_embedding := embed query
  match np_dot chunk_embeddings query_embedding with
  | Except.error e => Except.error e
  | Except.ok similarities =>
    let top_indices := (pyLastSlice (argsort similarities) top_k).reverse
    Except.ok (top_indices.map (fun idx =>
      ⟨lecture_chunks.getD idx default, similarities.getD idx 0⟩))

/-- Python `s.rfind(c)` for a single character: the highest index at which
`c` occurs in `s`, or `-1` when it does not occur. -/
def pyRfind : List Char → Char → Int
  | [], _ => -1
  | x :: xs, c =>
    let r := pyRfind xs c
    if 0 ≤ r then r + 1
    else if x = c then 0 else -1

/-- The per-chunk context trim of `rag_answer` (rag_lectures.py lines
144-155): keep at most the first 1500 characters, then cut back to just
after the last `.`, `?` or `!` — but only when that position is strictly
positive (`if last_sentence_end > 0`). -/
def trimChunkText (text : List Char) : List Char :=
  let chunk_text := text.take 1500
  let last_sentence_end :=
    max (pyRfind chunk_text '.') (max (pyRfind chunk_text '?') (pyRfind chunk_text '!'))
  if 0 < last_sentence_end then chunk_text.take (last_sentence_end.toNat + 1)
  else chunk_text

/-- Observable outcome of `rag_answer`: a string returned without calling
the generation service, a call to `litellm.completion` with the built
prompt, or a raised Python exception. -/
inductive RagResult where
  | message (s : List Char)
  | generation (prompt : List Char)
  | pyError (e : String)
deriving Repr, DecidableEq

/-- The fixed no-relevant-content reply (rag_lectures.py line 136). -/
def no_content_message : List Char :=
  ("No relevant content found in course materials for this question.").data

/-- `rag_answer` (rag_lectures.py lines 118-179) up to the point where the
external generation service is invoked: retrieve `max_chunks` results, raise
IndexError on an empty result list (`results[0]`), short-circuit with the
fixed message when the best similarity is below 0.2, otherwise assemble the
augmented prompt and hand it to generation. -/
def rag_answer (embed : List Char → List ℚ) (lecture_chunks : List Chunk)
    (chunk_embeddings : List (List ℚ)) (question : List Char)
    (max_chunks : Nat) : RagResult :=
  match search_chunks embed lecture_chunks chunk_embeddings question max_chunks with
  | Except.error e => RagResult.pyError e
  | Except.ok results =>
    match results with
    | [] => RagResult.pyError "IndexError: list index out of range"
    | r0 :: _ =>
      if r0.similarity < (0.2 : ℚ) then RagResult.message no_content_message
      else
        let context_parts := results.enum.map (fun p =>
          ("Section ").data ++ (Nat.repr (p.1 + 1)).data ++ (":\n").data
            ++ trimChunkText p.2.chunk.text)
        let context := List.intercalate ("\n\n---\n\n").data context_parts
        RagResult.generation
          (("Based on the following course materials from the lectures, answer this question: ").data
            ++ question
            ++ ("\n\nCOURSE MATERIALS:\n").data
            ++ context
            ++ ("\n\nPlease provide a comprehensive answer based specifically on what the course materials say. Use the exact terminology and examples from the lecture.").data)

/-- The ASCII apostrophe character. -/
def apos : Char := Char.ofNat 39

/-- Python `str.lower()` (ASCII case folding suffices for the answers in
this game). -/
def pyLower (s : List Char) : List Char := s.map Char.toLower

/-- The question-word openings stripped by `_normalize_answer`
(game_logic.py lines 118-122). -/
def question_starts : List (List Char) :=
  [("what is ").data, ("what").data ++ [apos] ++ ("s ").data, ("whats ").data,
   ("who is ").data, ("who").data ++ [apos] ++ ("s ").data, ("whos ").data,
   ("where is ").data, ("where").data ++ [apos] ++ ("s ").data, ("wheres ").data]

/-- The leading articles stripped by `_normalize_answer`
(game_logic.py line 128). -/
def article_starts : List (List Char) :=
  [("the ").data, ("a ").data, ("an ").data]

/-- Remove the first matching opening from the given list, mirroring the
`for ... if t.startswith(p): t = t[len(p):]; break` loops of
`_normalize_answer`. -/
def dropFirstMatching (ps : List (List Char)) (t : List Char) : List Char :=
  match ps with
  | [] => t
  | p :: rest =>
    if List.isPrefixOf p t then t.drop p.length else dropFirstMatching rest t

/-- The character set of `t.strip(" .!?\"'")` (game_logic.py line 134). -/
def strip_chars : List Char := [' ', '.', '!', '?', '\"', apos]

/-- Python `s.strip(chars)`: remove the given characters from both ends. -/
def pyStripChars (cs : List Char) (s : List Char) : List Char :=
  ((s.dropWhile (fun c => cs.contains c)).reverse.dropWhile
    (fun c => cs.contains c)).reverse

/-- `_normalize_answer` (game_logic.py lines 115-135). -/
def normalize_answer (text : List Char) : List Char :=
  let t := pyLower (pyStrip text)
  let t := dropFirstMatching question_starts t
  let t := dropFirstMatching article_starts t
  pyStripChars strip_chars t

/-- The synonym groups of game_logic.py lines 140-163. -/
def SYNONYMS : List (List (List Char)) :=
  [[("aurora borealis").data, ("northern lights").data],
   [("aurora australis").data, ("southern lights").data],
   [("aurora").data, ("aurora borealis").data, ("northern lights").data],
   [("sol").data, ("sun").data],
   [("terra").data, ("earth").data],
   [("luna").data, ("moon").data],
   [("h2o").data, ("water").data],
   [("electromagnetic radiation").data, ("light").data],
   [("hubble").data, ("hubble space telescope").data],
   [("iss").data, ("international space station").data],
   [("milky way").data, ("milky way galaxy").data],
   [("cme").data, ("coronal mass ejection").data],
   [("hr diagram").data, ("hertzsprung russell diagram").data,
    ("hertzsprung-russell diagram").data],
   [("tidal locking").data, ("synchronous rotation").data],
   [("shooting star").data, ("meteor").data],
   [("falling star").data, ("meteor").data],
   [("git pull").data, ("pull").data],
   [("git push").data, ("push").data],
   [("git commit").data, ("commit").data],
   [("llm").data, ("large language model").data],
   [("api").data, ("application programming interface").data],
   [("rag").data, ("retrieval augmented generation").data]]

/-- `_synonyms_match` (game_logic.py lines 166-171). -/
def synonyms_match (a b : List Char) : Bool :=
  SYNONYMS.any (fun group => group.contains a && group.contains b)

/-- Python `str.split()` with no argument: split on runs of whitespace,
discarding empty pieces. -/
def pySplitWs : List Char → List (List Char)
  | [] => []
  | c :: rest =>
    if c.isWhitespace then pySplitWs rest
    else
      match rest, pySplitWs rest with
      | [], _ => [[c]]
      | _ :: _, [] => [[c]]
      | d :: _, t :: ts =>
        if d.isWhitespace then [c] :: t :: ts else (c :: t) :: ts

/-- The inner `tokens_match` of `check_answer` (game_logic.py lines
197-201): every user token must be a substring of some correct token or
contain one. -/
def tokens_match (user_toks correct_toks : List (List Char)) : Bool :=
  user_toks.all (fun ut =>
    correct_toks.any (fun ct => decide (ut <:+: ct) || decide (ct <:+: ut)))

/-- `check_answer` (game_logic.py lines 174-216).  The two
`difflib.get_close_matches(word, [candidate], n=1, cutoff)` calls are an
external string-similarity capability, abstracted as a boolean-valued
parameter `close cutoff word candidate`. -/
def check_answer (close : ℚ → List Char → List Char → Bool)
    (user_answer correct_answer : List Char) : Bool :=
  let user := normalize_answer user_answer
  let correct := normalize_answer correct_answer
  if user.isEmpty then false
  else if user = correct then true
  else if synonyms_match user correct then true
  else
    let user_tokens := pySplitWs user
    let correct_tokens := pySplitWs correct
    if tokens_match user_tokens correct_tokens then true
    else if correct_tokens.any
        (fun ct => decide (3 < ct.length) && close (0.8 : ℚ) user ct) then true
    else close (0.6 : ℚ) user correct

/-- The end-to-end example corpus of the specification: two sections, the
second claimed to be padded past 100 characters. -/
def corpusC5 : List Char :=
  ("## Variables\nA variable stores a value.\n## Loops\nA loop repeats code many times over and over for testing purposes here.").data

/-- A 150-character single-section corpus (no section marker, well over the
100-character threshold), used to exercise the build path concretely. -/
def corpusOneSection : List Char := List.replicate 150 'a'

/-- A concrete stand-in embedder used for concrete evaluations: a fixed
two-dimensional vector depending on the first character of the text. -/
def embedW : List Char → List ℚ := fun s =>
  match s with
  | [] => [1, 0]
  | c :: _ => if c = 'x' then [0, 1] else [1, 0]

/-- A concrete three-chunk store used for concrete evaluations. -/
def chunksW : List Chunk :=
  [⟨("alpha").data, 5, 0⟩, ⟨("beta").data, 4, 1⟩, ⟨("gamma").data, 5, 2⟩]

/-- Embedding rows parallel to `chunksW`. -/
def rowsW : List (List ℚ) := [[1, 0], [0, 1], [1, 1]]

/-- Embedding rows parallel to `chunksW` whose dot products with any
`embedW` query are all below the 0.2 threshold. -/
def rowsLow : List (List ℚ) := [[1/10, 0], [0, 1/10], [1/10, 1/10]]

/-- Chunk text for the sentence-boundary counterexample: a full stop at
index 0 followed by 1500 letters, so the text exceeds 1500 characters and
the only sentence terminator in the truncation window sits at index 0. -/
def dotFirstText : List Char := '.' :: List.replicate 1500 'a'

/-- Chunk text for the sentence-boundary witness: 1501 characters with a
full stop at index 1. -/
def dotSecondText : List Char := 'a' :: '.' :: List.replicate 1499 'b'

set_option maxRecDepth 100000

theorem argsort_perm (s : List ℚ) : (argsort s).Perm (List.range s.length) :=
  List.perm_insertionSort _ _

theorem length_argsort (s : List ℚ) : (argsort s).length = s.length := by
  simpa using (argsort_perm s).length_eq

theorem mem_argsort {s : List ℚ} {i : Nat} : i ∈ argsort s ↔ i < s.length := by
  rw [(argsort_perm s).mem_iff, List.mem_range]

theorem argsort_sorted (s : List ℚ) :
    (argsort s).Pairwise (fun i j => s.getD i 0 ≤ s.getD j 0) := by
  haveI : IsTotal Nat (fun i j => s.getD i 0 ≤ s.getD j 0) :=
    ⟨fun a b => le_total _ _⟩
  haveI : IsTrans Nat (fun i j => s.getD i 0 ≤ s.getD j 0) :=
    ⟨fun a b c h1 h2 => h1.trans h2⟩
  exact List.sorted_insertionSort _ _

theorem pyLastSlice_sublist {α : Type} (l : List α) (k : Nat) :
    (pyLastSlice l k).Sublist l := by
  unfold pyLastSlice
  split
  · exact List.Sublist.refl l
  · exact List.drop_sublist _ l

theorem length_pyLastSlice {α : Type} (l : List α) {k : Nat} (hk : 1 ≤ k) :
    (pyLastSlice l k).length = min k l.length := by
  unfold pyLastSlice
  rw [if_neg (by omega), List.length_drop]
  omega

theorem pyLastSlice_take {α : Type} (l : List α) {k k' : Nat}
    (h1 : 1 ≤ k') (h2 : k' ≤ k) :
    (pyLastSlice l k').reverse = ((pyLastSlice l k).reverse).take k' := by
  unfold pyLastSlice
  rw [if_neg (by omega), if_neg (by omega), List.reverse_drop, List.reverse_drop,
    List.take_take]
  congr 1
  omega

theorem search_chunks_ok (embed : List Char → List ℚ) (lecture_chunks : List Chunk)
    (chunk_embeddings : List (List ℚ)) (query : List Char) (top_k : Nat)
    (hne : chunk_embeddings ≠ [])
    (hdim : ∀ r ∈ chunk_embeddings, r.length = (embed query).length) :
    search_chunks embed lecture_chunks chunk_embeddings query top_k =
      Except.ok ((pyLastSlice (argsort (chunk_embeddings.map
          (fun r => dot r (embed query)))) top_k).reverse.map
        (fun idx => ⟨lecture_chunks.getD idx default,
          (chunk_embeddings.map (fun r => dot r (embed query))).getD idx 0⟩)) := by
  have h1 : ¬ (chunk_embeddings.isEmpty = true) := by
    simp [List.isEmpty_iff, hne]
  have h2 : chunk_embeddings.all
      (fun r => decide (r.length = (embed query).length)) = true := by
    rw [List.all_eq_true]
    intro r hr
    exact decide_eq_true (hdim r hr)
  simp only [search_chunks, np_dot, if_neg h1, h2, if_pos]

/-- C3: evaluation of the code at the failing input.  On a store built from
an empty corpus (zero chunks, so `np.array(chunk_embeddings)` has shape
(0,)), `search_chunks("anything", 5)` raises a shape-mismatch ValueError in
`np.dot` instead of returning an empty result sequence. -/
theorem C3_empty_store_search_raises :
    search_chunks (fun _ => List.replicate 384 1) [] [] ("anything").data 5 =
      Except.error "ValueError: shapes (0,) and (n,) not aligned" := rfl

/-- C5 counterexample: on the specification's example corpus,
`chunk_by_sections` yields 0 chunks, not the claimed 2: the claim is false
at this explicit input. -/
theorem C5_counterexample : (chunk_by_sections corpusC5).length = 0 := by decide

/-- C5 (amended): on the example corpus the split produces two candidate
segments whose stripped lengths are 39 and 80 characters — both at most 100,
so the length filter drops both and `chunk_by_sections` yields the empty
chunk list. -/
theorem C5_sections_below_threshold :
    chunk_by_sections corpusC5 = [] ∧
    (sectionSegments corpusC5).map (fun s => (pyStrip s).length) = [39, 80] := by
  decide

/-- C9: whenever both cache artifacts exist, the load-or-build block returns
exactly their deserialized contents: the chunker does not run, the embedder
does not run, no cache files are written, and the result does not depend on
(and is not validated against) the current corpus text. -/
theorem C9_cache_hit_returns_cache (embed : List Char → List ℚ)
    (cache : CacheState) (corpus : List Char) (cs : List Chunk)
    (em : List (List ℚ)) (h1 : cache.chunks_file = some cs)
    (h2 : cache.embeddings_file = some em) :
    load_or_build embed cache corpus = ⟨cs, em, false, false, false⟩ := by
  obtain ⟨f1, f2⟩ := cache
  cases h1
  cases h2
  rfl

/-- Witness for C9 at a concrete cache, embedder and corpus. -/
theorem C9_cache_hit_returns_cache_witness :
    load_or_build embedW ⟨some chunksW, some rowsW⟩ corpusOneSection =
      ⟨chunksW, rowsW, false, false, false⟩ :=
  C9_cache_hit_returns_cache embedW ⟨some chunksW, some rowsW⟩ corpusOneSection
    chunksW rowsW rfl rfl

/-- C7: on the build path (no cache file present) the embedding matrix has
one row per chunk, and row i is the embedding of the chunk at position i. -/
theorem C7_build_rows_match_chunks (embed : List Char → List ℚ)
    (corpus : List Char) :
    (load_or_build embed ⟨none, none⟩ corpus).chunk_embeddings.length =
      (load_or_build embed ⟨none, none⟩ corpus).lecture_chunks.length ∧
    ∀ i, i < (load_or_build embed ⟨none, none⟩ corpus).lecture_chunks.length →
      (load_or_build embed ⟨none, none⟩ corpus).chunk_embeddings[i]? =
        some (embed (((load_or_build embed ⟨none, none⟩ corpus).lecture_chunks.getD
          i default).text)) := by
  constructor
  · simp [load_or_build]
  · intro i hi
    simp only [load_or_build] at hi ⊢
    rw [List.getElem?_map, List.getElem?_eq_getElem (by simpa using hi),
      List.getD_eq_getElem _ _ (by simpa using hi)]
    rfl

/-- Witness for C7 at a concrete embedder and a one-chunk corpus. -/
theorem C7_build_rows_match_chunks_witness :
    (load_or_build embedW ⟨none, none⟩ corpusOneSection).chunk_embeddings[0]? =
      some (embedW (((load_or_build embedW ⟨none, none⟩
        corpusOneSection).lecture_chunks.getD 0 default).text)) :=
  (C7_build_rows_match_chunks embedW corpusOneSection).2 0 (by decide)

/-- C10: whenever the user answer normalizes to the empty string,
`check_answer` returns False regardless of the correct answer and of the
external fuzzy-matching capability. -/
theorem C10_empty_normalized_rejects (close : ℚ → List Char → List Char → Bool)
    (user_answer correct_answer : List Char)
    (h : normalize_answer user_answer = []) :
    check_answer close user_answer correct_answer = false := by
  simp [check_answer, h]

/-- Witness for C10: the input consisting of a stripped question word plus
punctuation normalizes to the empty string and is rejected. -/
theorem C10_empty_normalized_rejects_witness :
    normalize_answer ("what is ?").data = [] ∧
    check_answer (fun _ _ _ => true) ("what is ?").data ("sun").data = false :=
  ⟨by decide, C10_empty_normalized_rejects (fun _ _ _ => true) ("what is ?").data
    ("sun").data (by decide)⟩

theorem length_pyLastSlice_pos {α : Type} (l : List α) (k : Nat)
    (h : l ≠ []) : 0 < (pyLastSlice l k).length := by
  have hl : 0 < l.length := List.length_pos.mpr h
  unfold pyLastSlice
  split
  · exact hl
  · rw [List.length_drop]
    rename_i hk
    omega

/-- C8: the results for a smaller `top_k` are exactly the leading elements
of the results for a larger `top_k`: `argsort` is a deterministic function
of the similarity array, `[-k:]` takes a suffix of it, and reversal turns
the longer suffix's extra elements into appended trailing results. -/
theorem C8_topk_results_are_prefix (embed : List Char → List ℚ)
    (lecture_chunks : List Chunk) (chunk_embeddings : List (List ℚ))
    (query : List Char) (k k' : Nat) (rs : List SearchResult)
    (h1 : 1 ≤ k') (h2 : k' < k)
    (h3 : search_chunks embed lecture_chunks chunk_embeddings query k =
      Except.ok rs) :
    search_chunks embed lecture_chunks chunk_embeddings query k' =
      Except.ok (rs.take k') := by
  simp only [search_chunks] at h3 ⊢
  cases hnp : np_dot chunk_embeddings (embed query) with
  | error e =>
    rw [hnp] at h3
    simp at h3
  | ok sims =>
    rw [hnp] at h3
    simp only [Except.ok.injEq] at h3 ⊢
    rw [← h3, ← List.map_take, ← pyLastSlice_take _ h1 (Nat.le_of_lt h2)]

/-- Witness for C8 on a concrete three-chunk store: the single result for
`top_k = 1` is the head of the three results for `top_k = 3`. -/
theorem C8_topk_results_are_prefix_witness :
    search_chunks embedW chunksW rowsW ("q").data 1 =
      Except.ok ([⟨⟨("gamma").data, 5, 2⟩, 1⟩, ⟨⟨("alpha").data, 5, 0⟩, 1⟩,
        ⟨⟨("beta").data, 4, 1⟩, 0⟩].take 1) :=
  C8_topk_results_are_prefix embedW chunksW rowsW ("q").data 3 1
    [⟨⟨("gamma").data, 5, 2⟩, 1⟩, ⟨⟨("alpha").data, 5, 0⟩, 1⟩,
      ⟨⟨("beta").data, 4, 1⟩, 0⟩]
    (by decide) (by decide) (by with_unfolding_all decide)

/-- C2: when every stored chunk's similarity with the question is below 0.2
(so in particular the best match is), `rag_answer` returns the fixed
no-relevant-content message and never reaches the generation call. -/
theorem C2_low_similarity_short_circuits (embed : List Char → List ℚ)
    (lecture_chunks : List Chunk) (chunk_embeddings : List (List ℚ))
    (question : List Char) (max_chunks : Nat)
    (hne : chunk_embeddings ≠ [])
    (hdim : ∀ r ∈ chunk_embeddings, r.length = (embed question).length)
    (hlow : ∀ r ∈ chunk_embeddings, dot r (embed question) < (0.2 : ℚ)) :
    rag_answer embed lecture_chunks chunk_embeddings question max_chunks =
      RagResult.message no_content_message := by
  have hok := search_chunks_ok embed lecture_chunks chunk_embeddings question
    max_chunks hne hdim
  set sims := chunk_embeddings.map (fun r => dot r (embed question)) with hsims
  set results := (pyLastSlice (argsort sims) max_chunks).reverse.map
    (fun idx => (⟨lecture_chunks.getD idx default, sims.getD idx 0⟩ : SearchResult))
    with hres
  have hpos : 0 < chunk_embeddings.length := List.length_pos.mpr hne
  have hlenA : (argsort sims).length = chunk_embeddings.length := by
    rw [length_argsort, hsims, List.length_map]
  have hAne : argsort sims ≠ [] := List.length_pos.mp (by rw [hlenA]; exact hpos)
  have hne2 : results ≠ [] := by
    intro hnil
    rw [hres] at hnil
    apply_fun List.length at hnil
    simp only [List.length_map, List.length_reverse, List.length_nil] at hnil
    have hgt := length_pyLastSlice_pos (argsort sims) max_chunks hAne
    omega
  obtain ⟨r0, rest, hcons⟩ := List.exists_cons_of_ne_nil hne2
  have hr0 : r0.similarity < (0.2 : ℚ) := by
    have hmem : r0 ∈ results := by
      rw [hcons]
      exact List.mem_cons_self _ _
    rw [hres] at hmem
    obtain ⟨idx, hidx, hfeq⟩ := List.mem_map.mp hmem
    have hidx2 : idx < sims.length :=
      mem_argsort.mp (List.Sublist.mem (List.mem_reverse.mp hidx)
        (pyLastSlice_sublist _ _))
    have hidx3 : idx < chunk_embeddings.length := by
      rw [hsims, List.length_map] at hidx2
      exact hidx2
    have hsim : r0.similarity = sims.getD idx 0 := by
      rw [← hfeq]
    rw [hsim, List.getD_eq_getElem _ _ hidx2]
    simp only [hsims, List.getElem_map]
    exact hlow _ (List.getElem_mem _)
  simp only [rag_answer, hok, hcons]
  rw [if_pos hr0]

/-- Witness for C2 on a concrete store whose similarities with the query
are 1/10, 1/10 and 1/5·(1/2)+... all below 0.2: the fixed message comes
back and generation is not reached. -/
theorem C2_low_similarity_short_circuits_witness :
    rag_answer embedW chunksW rowsLow ("q").data 2 =
      RagResult.message no_content_message :=
  C2_low_similarity_short_circuits embedW chunksW rowsLow ("q").data 2
    (by decide) (by decide) (by with_unfolding_all decide)

/-- C1 counterexample: at a store with zero chunks (min(top_k, n) = 0) and
top_k = 1, `search_chunks` does not return the empty result sequence the
claim requires for every store — it raises a shape-mismatch error, so the
claim as stated is false at this input. -/
theorem C1_counterexample :
    search_chunks (fun _ => List.replicate 384 1) [] [] ("query").data 1 =
      Except.error "ValueError: shapes (0,) and (n,) not aligned" := rfl

/-- C1 (amended to stores holding at least one chunk; on the empty store
the search raises instead): for every store with n ≥ 1 chunks, a
well-formed embedding matrix (one row per chunk, rows of the query
embedding's dimension) and top_k ≥ 1, the search returns exactly
min(top_k, n) results, sorted in descending order of similarity, each
result pairing a stored chunk with the dot product of the query embedding
and that chunk's embedding row; no result is dropped for being below any
similarity threshold. -/
theorem C1_search_contract (embed : List Char → List ℚ)
    (lecture_chunks : List Chunk) (chunk_embeddings : List (List ℚ))
    (query : List Char) (top_k : Nat)
    (hne : lecture_chunks ≠ [])
    (hlen : chunk_embeddings.length = lecture_chunks.length)
    (hdim : ∀ r ∈ chunk_embeddings, r.length = (embed query).length)
    (hk : 1 ≤ top_k) :
    ∃ results,
      search_chunks embed lecture_chunks chunk_embeddings query top_k =
        Except.ok results ∧
      results.length = min top_k lecture_chunks.length ∧
      results.Pairwise (fun a b => b.similarity ≤ a.similarity) ∧
      ∀ res ∈ results, ∃ i, ∃ hi : i < lecture_chunks.length,
        ∃ hi2 : i < chunk_embeddings.length,
          res.chunk = lecture_chunks[i] ∧
          res.similarity = dot chunk_embeddings[i] (embed query) := by
  have hne2 : chunk_embeddings ≠ [] := by
    intro hcon
    rw [hcon] at hlen
    simp only [List.length_nil] at hlen
    exact hne (List.length_eq_zero.mp hlen.symm)
  have hok := search_chunks_ok embed lecture_chunks chunk_embeddings query
    top_k hne2 hdim
  set sims := chunk_embeddings.map (fun r => dot r (embed query)) with hsims
  have hsimslen : sims.length = lecture_chunks.length := by
    rw [hsims, List.length_map, hlen]
  refine ⟨_, hok, ?_, ?_, ?_⟩
  · rw [List.length_map, List.length_reverse, length_pyLastSlice _ hk,
      length_argsort, hsimslen]
  · have hsorted := argsort_sorted sims
    have hsl : ((pyLastSlice (argsort sims) top_k)).Pairwise
        (fun i j => sims.getD i 0 ≤ sims.getD j 0) :=
      List.Pairwise.sublist (pyLastSlice_sublist _ _) hsorted
    have hrev : ((pyLastSlice (argsort sims) top_k).reverse).Pairwise
        (fun i j => sims.getD j 0 ≤ sims.getD i 0) :=
      List.pairwise_reverse.mpr hsl
    exact List.pairwise_map.mpr (hrev.imp (fun h => h))
  · intro res hres
    obtain ⟨idx, hidx, hfeq⟩ := List.mem_map.mp hres
    have hidx2 : idx < sims.length :=
      mem_argsort.mp (List.Sublist.mem (List.mem_reverse.mp hidx)
        (pyLastSlice_sublist _ _))
    have hi : idx < lecture_chunks.length := by omega
    have hi2 : idx < chunk_embeddings.length := by
      rw [hsims, List.length_map] at hidx2
      exact hidx2
    refine ⟨idx, hi, hi2, ?_, ?_⟩
    · rw [← hfeq]
      exact List.getD_eq_getElem _ _ hi
    · rw [← hfeq]
      show sims.getD idx 0 = _
      rw [List.getD_eq_getElem _ _ hidx2]
      simp only [hsims, List.getElem_map]

/-- Witness for C1 on a concrete three-chunk store with top_k = 2. -/
theorem C1_search_contract_witness :
    ∃ results,
      search_chunks embedW chunksW rowsW ("q").data 2 = Except.ok results ∧
      results.length = min 2 chunksW.length ∧
      results.Pairwise (fun a b => b.similarity ≤ a.similarity) ∧
      ∀ res ∈ results, ∃ i, ∃ hi : i < chunksW.length,
        ∃ hi2 : i < rowsW.length,
          res.chunk = chunksW[i] ∧
          res.similarity = dot rowsW[i] (embedW ("q").data) :=
  C1_search_contract embedW chunksW rowsW ("q").data 2
    (by decide) (by decide) (by decide) (by decide)

theorem le_pyRfind_of_getElem? {s : List Char} {i : Nat} {c : Char}
    (h : s[i]? = some c) : (i : Int) ≤ pyRfind s c := by
  induction s generalizing i with
  | nil => simp at h
  | cons x xs ih =>
    cases i with
    | zero =>
      simp only [List.getElem?_cons_zero, Option.some.injEq] at h
      subst h
      simp only [pyRfind]
      split
      · rename_i hr
        omega
      · simp
    | succ j =>
      simp only [List.getElem?_cons_succ] at h
      have hj := ih h
      simp only [pyRfind]
      split
      · rename_i hr
        push_cast
        omega
      · rename_i hr
        exfalso
        apply hr
        omega
  
theorem getElem?_pyRfind {s : List Char} {c : Char} (h : 0 ≤ pyRfind s c) :
    s[(pyRfind s c).toNat]? = some c := by
  induction s with
  | nil => simp [pyRfind] at h
  | cons x xs ih =>
    by_cases hr : 0 ≤ pyRfind xs c
    · have hx : pyRfind (x :: xs) c = pyRfind xs c + 1 := by
        simp only [pyRfind]
        rw [if_pos hr]
      rw [hx]
      have ht : (pyRfind xs c + 1).toNat = (pyRfind xs c).toNat + 1 := by omega
      rw [ht, List.getElem?_cons_succ]
      exact ih hr
    · by_cases hxc : x = c
      · have hx : pyRfind (x :: xs) c = 0 := by
          simp only [pyRfind]
          rw [if_neg hr, if_pos hxc]
        rw [hx]
        simpa using hxc
      · have hx : pyRfind (x :: xs) c = -1 := by
          simp only [pyRfind]
          rw [if_neg hr, if_neg hxc]
        rw [hx] at h
        exact absurd h (by decide)

theorem getLast?_take_succ {α : Type} {l : List α} {n : Nat} {a : α}
    (h : l[n]? = some a) : (l.take (n + 1)).getLast? = some a := by
  have hn : n < l.length := by
    rcases List.getElem?_eq_some.mp h with ⟨h1, -⟩
    exact h1
  rw [List.getLast?_eq_getElem?]
  have hl : (l.take (n + 1)).length = n + 1 := by
    rw [List.length_take]
    omega
  rw [hl, Nat.add_sub_cancel, List.getElem?_take, if_pos (by omega)]
  exact h

theorem take_replicate_of_le {α : Type} (a : α) {n m : Nat} (h : n ≤ m) :
    (List.replicate m a).take n = List.replicate n a := by
  rw [List.take_replicate]
  congr 1
  omega

theorem pyRfind_replicate_ne {a c : Char} (h : a ≠ c) (n : Nat) :
    pyRfind (List.replicate n a) c = -1 := by
  induction n with
  | zero => rfl
  | succ m ih =>
    simp only [List.replicate_succ, pyRfind, ih]
    rw [if_neg (by decide), if_neg h]

theorem pyRfind_cons_eq_zero {x c : Char} {xs : List Char}
    (h : pyRfind xs c = -1) (hx : x = c) : pyRfind (x :: xs) c = 0 := by
  simp only [pyRfind, h]
  rw [if_neg (by decide), if_pos hx]

theorem pyRfind_cons_eq_neg {x c : Char} {xs : List Char}
    (h : pyRfind xs c = -1) (hx : x ≠ c) : pyRfind (x :: xs) c = -1 := by
  simp only [pyRfind, h]
  rw [if_neg (by decide), if_neg hx]

theorem getLast?_cons_replicate {x a : Char} {n : Nat} (h : n ≠ 0) :
    (x :: List.replicate n a).getLast? = some a := by
  rw [List.getLast?_eq_getElem?]
  simp only [List.length_cons, List.length_replicate, Nat.add_sub_cancel]
  cases n with
  | zero => exact absurd rfl h
  | succ m =>
    rw [List.getElem?_cons_succ, List.getElem?_replicate, if_pos (by omega)]

theorem dotFirstText_take : dotFirstText.take 1500 = '.' :: List.replicate 1499 'a' := by
  simp only [dotFirstText, List.take_succ_cons]
  rw [take_replicate_of_le _ (by omega)]

/-- C4 counterexample: a chunk text of 1501 characters whose only sentence
terminator within the first 1500 characters sits at index 0.  The code's
`last_sentence_end > 0` test rejects position 0, so no trimming happens and
the built fragment ends with a letter, falsifying the claim at this input. -/
theorem C4_counterexample :
    1500 < dotFirstText.length ∧
    ('.' ∈ dotFirstText.take 1500) ∧
    (trimChunkText dotFirstText).getLast? = some 'a' ∧
    ¬ ((trimChunkText dotFirstText).getLast? = some '.' ∨
       (trimChunkText dotFirstText).getLast? = some '?' ∨
       (trimChunkText dotFirstText).getLast? = some '!') := by
  have hdot : pyRfind (dotFirstText.take 1500) '.' = 0 := by
    rw [dotFirstText_take]
    exact pyRfind_cons_eq_zero (pyRfind_replicate_ne (by decide) _) rfl
  have hq : pyRfind (dotFirstText.take 1500) '?' = -1 := by
    rw [dotFirstText_take]
    exact pyRfind_cons_eq_neg (pyRfind_replicate_ne (by decide) _) (by decide)
  have hb : pyRfind (dotFirstText.take 1500) '!' = -1 := by
    rw [dotFirstText_take]
    exact pyRfind_cons_eq_neg (pyRfind_replicate_ne (by decide) _) (by decide)
  have htrim : trimChunkText dotFirstText = '.' :: List.replicate 1499 'a' := by
    simp only [trimChunkText, hdot, hq, hb]
    rw [if_neg (by decide), dotFirstText_take]
  have hlast : (trimChunkText dotFirstText).getLast? = some 'a' := by
    rw [htrim]
    exact getLast?_cons_replicate (by omega)
  refine ⟨?_, ?_, hlast, ?_⟩
  · simp only [dotFirstText, List.length_cons, List.length_replicate]
    omega
  · rw [dotFirstText_take]
    exact List.mem_cons_self _ _
  · simp only [hlast]
    decide

/-- C4 (amended: the sentence terminator must occur at a strictly positive
index of the truncation window; an occurrence only at index 0 is ignored by
the `> 0` test): for any retrieved chunk text longer than 1500 characters,
if some `.`, `?` or `!` occurs at a positive index among the first 1500
characters, the context fragment built by `rag_answer` ends with one of
`.`, `?`, `!`. -/
theorem C4_sentence_boundary (text : List Char)
    (hlong : 1500 < text.length)
    (h : ∃ i c, 0 < i ∧ (text.take 1500)[i]? = some c ∧
      (c = '.' ∨ c = '?' ∨ c = '!')) :
    (trimChunkText text).getLast? = some '.' ∨
    (trimChunkText text).getLast? = some '?' ∨
    (trimChunkText text).getLast? = some '!' := by
  obtain ⟨i, c, hi, hget, hc⟩ := h
  have hle : (i : Int) ≤ pyRfind (text.take 1500) c := le_pyRfind_of_getElem? hget
  have hcm : pyRfind (text.take 1500) c ≤
      max (pyRfind (text.take 1500) '.')
        (max (pyRfind (text.take 1500) '?') (pyRfind (text.take 1500) '!')) := by
    rcases hc with rfl | rfl | rfl
    · exact le_max_left _ _
    · exact le_trans (le_max_left _ _) (le_max_right _ _)
    · exact le_trans (le_max_right _ _) (le_max_right _ _)
  have hmpos : 0 < max (pyRfind (text.take 1500) '.')
      (max (pyRfind (text.take 1500) '?') (pyRfind (text.take 1500) '!')) := by
    omega
  have htrim : trimChunkText text = (text.take 1500).take
      ((max (pyRfind (text.take 1500) '.')
        (max (pyRfind (text.take 1500) '?')
          (pyRfind (text.take 1500) '!'))).toNat + 1) := by
    simp only [trimChunkText]
    rw [if_pos hmpos]
  rcases max_choice (pyRfind (text.take 1500) '.')
      (max (pyRfind (text.take 1500) '?') (pyRfind (text.take 1500) '!')) with
    h1 | h1
  · left
    rw [htrim, h1]
    exact getLast?_take_succ (getElem?_pyRfind (by omega))
  · rcases max_choice (pyRfind (text.take 1500) '?')
        (pyRfind (text.take 1500) '!') with h2 | h2
    · right; left
      rw [htrim, h1, h2]
      exact getLast?_take_succ (getElem?_pyRfind (by omega))
    · right; right
      rw [htrim, h1, h2]
      exact getLast?_take_succ (getElem?_pyRfind (by omega))

theorem dotSecondText_long : 1500 < dotSecondText.length := by
  simp only [dotSecondText, List.length_cons, List.length_replicate]
  omega

theorem dotSecondText_getElem : (dotSecondText.take 1500)[1]? = some '.' := by
  have h : dotSecondText.take 1500 = 'a' :: '.' :: List.replicate 1498 'b' := by
    simp only [dotSecondText, List.take_succ_cons]
    rw [take_replicate_of_le _ (by omega)]
  rw [h]
  rfl

/-- Witness for C4 on a 1501-character text with a full stop at index 1:
the fragment is trimmed to end at that full stop. -/
theorem C4_sentence_boundary_witness :
    (trimChunkText dotSecondText).getLast? = some '.' ∨
    (trimChunkText dotSecondText).getLast? = some '?' ∨
    (trimChunkText dotSecondText).getLast? = some '!' :=
  C4_sentence_boundary dotSecondText dotSecondText_long
    ⟨1, '.', by decide, dotSecondText_getElem, Or.inl rfl⟩

theorem le_fst_of_mem_enumFrom {α : Type} {n : Nat} {l : List α} {p : Nat × α}
    (h : p ∈ List.enumFrom n l) : n ≤ p.1 := by
  induction l generalizing n with
  | nil => simp [List.enumFrom] at h
  | cons x xs ih =>
    rw [List.enumFrom_cons] at h
    rcases List.mem_cons.mp h with h | h
    · subst h
      exact Nat.le_refl _
    · have := ih h
      omega

theorem pairwise_fst_lt_enumFrom {α : Type} (n : Nat) (l : List α) :
    (List.enumFrom n l).Pairwise (fun a b => a.1 < b.1) := by
  induction l generalizing n with
  | nil => simp [List.enumFrom]
  | cons x xs ih =>
    rw [List.enumFrom_cons]
    refine List.Pairwise.cons ?_ (ih (n + 1))
    intro p hp
    have := le_fst_of_mem_enumFrom hp
    show n < p.1
    omega

theorem sectionSegments_length (text : List Char) :
    (sectionSegments text).length = (splitSections text).length := by
  simp [sectionSegments]

theorem sectionSegments_getElem (text : List Char) (i : Nat)
    (h : i < (splitSections text).length) :
    ∃ hh : i < (sectionSegments text).length,
      (sectionSegments text)[i] =
        if i = 0 then (splitSections text)[i]
        else '#' :: '#' :: ' ' :: (splitSections text)[i] := by
  have hl := sectionSegments_length text
  refine ⟨by omega, ?_⟩
  simp only [sectionSegments]
  rw [List.getElem_map, List.getElem_enum]

theorem chunk_of_filterMap_fn {i : Nat} {ct : List Char} {c : Chunk}
    (h : (if 100 < (pyStrip ct).length
      then some (⟨pyStrip ct, ct.length, i⟩ : Chunk) else none) = some c) :
    c = ⟨pyStrip ct, ct.length, i⟩ ∧ 100 < (pyStrip ct).length := by
  split at h
  · rw [Option.some.injEq] at h
    exact ⟨h.symm, by assumption⟩
  · exact absurd h (by simp)

/-- C6: a split segment survives into the chunk list exactly when its
whitespace-stripped text is longer than 100 characters; each surviving
chunk stores the stripped text and the id equal to its position in the
pre-filter split sequence, and the chunk ids are strictly increasing, so
the chunks appear in original split order. -/
theorem C6_chunk_filter_ids (text : List Char) :
    (∀ c ∈ chunk_by_sections text,
      ∃ hid : c.chunk_id < (sectionSegments text).length,
        c.text = pyStrip ((sectionSegments text)[c.chunk_id]) ∧
        100 < (pyStrip ((sectionSegments text)[c.chunk_id])).length) ∧
    (∀ i, ∀ hi : i < (sectionSegments text).length,
      100 < (pyStrip ((sectionSegments text)[i])).length →
      ∃ c ∈ chunk_by_sections text, c.chunk_id = i) ∧
    ((chunk_by_sections text).map Chunk.chunk_id).Pairwise (fun a b => a < b) := by
  refine ⟨?_, ?_, ?_⟩
  · intro c hc
    obtain ⟨p, hp, hf⟩ := List.mem_filterMap.mp hc
    obtain ⟨i, s⟩ := p
    have hps : (splitSections text)[i]? = some s := List.mem_enum_iff_getElem?.mp hp
    obtain ⟨hilt, hs⟩ := List.getElem?_eq_some.mp hps
    obtain ⟨hh, hseg⟩ := sectionSegments_getElem text i hilt
    dsimp only at hf
    obtain ⟨hceq, hcond⟩ := chunk_of_filterMap_fn hf
    subst hceq
    refine ⟨hh, ?_, ?_⟩
    · dsimp only
      rw [hseg, hs]
    · rw [hseg, hs]
      exact hcond
  · intro i hi hcond
    have hl := sectionSegments_length text
    have hilt : i < (splitSections text).length := by omega
    obtain ⟨hh, hseg⟩ := sectionSegments_getElem text i hilt
    rw [hseg] at hcond
    refine ⟨⟨pyStrip (if i = 0 then (splitSections text)[i]
        else '#' :: '#' :: ' ' :: (splitSections text)[i]),
      (if i = 0 then (splitSections text)[i]
        else '#' :: '#' :: ' ' :: (splitSections text)[i]).length, i⟩, ?_, rfl⟩
    apply List.mem_filterMap.mpr
    refine ⟨(i, (splitSections text)[i]), ?_, ?_⟩
    · exact List.mem_enum_iff_getElem?.mpr (List.getElem?_eq_getElem hilt)
    · dsimp only
      rw [if_pos hcond]
  · have henum : (splitSections text).enum.Pairwise (fun a b => a.1 < b.1) :=
      pairwise_fst_lt_enumFrom 0 _
    have hp : (chunk_by_sections text).Pairwise
        (fun a b => a.chunk_id < b.chunk_id) := by
      refine List.Pairwise.filterMap _ ?_ henum
      intro a b hab c hc d hd
      obtain ⟨i, s⟩ := a
      obtain ⟨j, t⟩ := b
      rw [Option.mem_def] at hc hd
      dsimp only at hc hd
      obtain ⟨hceq, -⟩ := chunk_of_filterMap_fn hc
      obtain ⟨hdeq, -⟩ := chunk_of_filterMap_fn hd
      subst hceq
      subst hdeq
      exact hab
    exact List.pairwise_map.mpr hp

/-- Witness for C6: on the one-section 150-character corpus the segment at
split position 0 passes the length filter and yields a chunk with id 0. -/
theorem C6_chunk_filter_ids_witness :
    ∃ c ∈ chunk_by_sections corpusOneSection, c.chunk_id = 0 :=
  (C6_chunk_filter_ids corpusOneSection).2.1 0 (by decide) (by decide)
